import Mathlib

/-!
Verification of the motivational Telegram bot backend (src/main.py).

The development shallowly embeds the pure content of the source:
the per-user conversation context (USER_CONTEXT, MAX_HISTORY, chat_with_groq),
the subscriber store (add_subscriber / remove_subscriber / get_subscribers,
SQLite INSERT OR IGNORE / DELETE semantics), the daily broadcast loop
(send_daily_messages), and the daily scheduler contract.  External effects
(the Groq API call, Telegram delivery) are passed in as explicit oracle
functions; the global dict USER_CONTEXT is threaded as an association list.
-/

namespace TelegramBot

/-- A stored conversation turn, exactly the Python tuple (role, msg)
kept in USER_CONTEXT. -/
abbrev History := List (String × String)

/-- The global USER_CONTEXT dict: chat id to history, as an association list. -/
abbrev UserContext := List (Int × History)

/-- Dict read with default: USER_CONTEXT.get(chat_id, []). -/
def ctxGet : UserContext → Int → History
  | [], _ => []
  | (k, v) :: rest, chatId => if k = chatId then v else ctxGet rest chatId

/-- Dict write: USER_CONTEXT[chat_id] = h. -/
def ctxSet : UserContext → Int → History → UserContext
  | [], chatId, h => [(chatId, h)]
  | (k, v) :: rest, chatId, h =>
      if k = chatId then (chatId, h) :: rest else (k, v) :: ctxSet rest chatId h

/-- MAX_HISTORY = 5 (src/main.py line 109). -/
def MAX_HISTORY : Nat := 5

/-- A role-tagged message sent to the provider (the Python dicts with
"role" and "content" keys). -/
structure Message where
  role : String
  content : String
deriving DecidableEq, Repr

/-- The system instruction (the three adjacent string literals of
src/main.py lines 118-122 concatenate to this single string). -/
def systemPrompt : String :=
  "You are a kind motivational assistant. Reply in 2-3 sentences, always positive, encouraging, and supportive. If user is stressed, give calming and simple tips."

/-- Fallback reply when the Groq client is not configured (line 114). -/
def unavailableReply : String :=
  "Sorry, my AI chat service is currently unavailable. But remember: You\x27ve got this!"

/-- Fallback reply when the provider call raises (line 137). -/
def fallbackReply : String :=
  "I\x27m here for you 💙. Take a deep breath and remember you\x27re doing your best."

/-- Python slice history[-n:]: the last n elements (all of them when
the list is shorter). -/
def takeLast (n : Nat) (l : List α) : List α := l.drop (l.length - n)

/-- Request construction, src/main.py lines 118-125: the system message,
then every stored history turn with its stored role, then the new user
message last. -/
def buildMessages (history : History) (userMessage : String) : List Message :=
  ({ role := "system", content := systemPrompt } ::
    history.map (fun rm => { role := rm.1, content := rm.2 })) ++
  [{ role := "user", content := userMessage }]

/-- Outcome of the external provider call: a reply text, or a raised
exception (carrying its message). -/
inductive GroqResult where
  | ok (content : String)
  | error (msg : String)
deriving DecidableEq, Repr

/-- The try/except of lines 127-137: on success the reply is the provider
content stripped of surrounding whitespace; on any exception the reply is
the fixed fallback text. -/
def replyFor (provider : List Message → GroqResult) (history : History)
    (userMessage : String) : String :=
  match provider (buildMessages history userMessage) with
  | GroqResult.ok content => content.trim
  | GroqResult.error _ => fallbackReply

/-- History update of lines 139-143: append the (user, assistant) pair,
then keep only the last MAX_HISTORY*2 turns. -/
def stepHistory (provider : List Message → GroqResult) (history : History)
    (userMessage : String) : History :=
  takeLast (MAX_HISTORY * 2)
    (history ++ [("user", userMessage), ("assistant", replyFor provider history userMessage)])

/-- chat_with_groq, src/main.py lines 111-144.  `clientConfigured` models
whether GROQ_API_KEY was present (so groq_client is not None); `provider`
is the external Groq call.  Returns the reply together with the updated
USER_CONTEXT: when the client is missing the function returns the
unavailable-service text before touching USER_CONTEXT; otherwise it reads
the history, computes the reply (provider content stripped, or the
fallback on an exception), records the exchange and truncates. -/
def chat_with_groq (clientConfigured : Bool) (provider : List Message → GroqResult)
    (ctx : UserContext) (chatId : Int) (userMessage : String) : String × UserContext :=
  if clientConfigured then
    let history := ctxGet ctx chatId
    (replyFor provider history userMessage,
      ctxSet ctx chatId (stepHistory provider history userMessage))
  else
    (unavailableReply, ctx)

/-- N successive exchanges for one recipient, each processed through
chat_with_groq with a configured client. -/
def runExchanges (provider : List Message → GroqResult) (ctx : UserContext)
    (chatId : Int) (msgs : List String) : UserContext :=
  msgs.foldl (fun c m => (chat_with_groq true provider c chatId m).2) ctx

/-- The same exchange sequence viewed on the history of one recipient alone. -/
def foldHistory (provider : List Message → GroqResult) (history : History)
    (msgs : List String) : History :=
  msgs.foldl (stepHistory provider) history

/-- The full chronological transcript of a run: every (user, assistant)
turn produced, oldest first, never truncated.  The replies are the ones
the code actually produces (each is conditioned on the truncated history
current at its exchange). -/
def transcript (provider : List Message → GroqResult) : History → List String → History
  | _, [] => []
  | h, m :: ms =>
      ("user", m) :: ("assistant", replyFor provider h m) ::
        transcript provider (stepHistory provider h m) ms

/-- Pairing shape of a stored history: it is a list of whole
(user, assistant) exchanges, user turn first in each pair. -/
def pairedHist : History → Bool
  | [] => true
  | (r1, _) :: (r2, _) :: rest => r1 == "user" && r2 == "assistant" && pairedHist rest
  | _ => false

/-- The Context Buffer invariant: whole alternating (user, assistant)
pairs, and at most MAX_HISTORY*2 turns. -/
def WellFormedHistory (h : History) : Prop :=
  pairedHist h = true ∧ h.length ≤ MAX_HISTORY * 2

/-- A row of the subscribers table (src/main.py lines 56-64). -/
structure SubscriberRow where
  chat_id : Int
  first_name : String
  timezone : String
deriving DecidableEq, Repr

/-- The subscribers table; chat_id is the primary key. -/
abbrev SubscriberTable := List SubscriberRow

/-- get_subscribers (lines 90-97): SELECT chat_id FROM subscribers. -/
def get_subscribers (db : SubscriberTable) : List Int :=
  db.map (fun r => r.chat_id)

/-- Whether a chat id is present in the table. -/
def isSubscribed (db : SubscriberTable) (chatId : Int) : Bool :=
  decide (chatId ∈ get_subscribers db)

/-- add_subscriber (lines 69-78): INSERT OR IGNORE — when the primary key
chat_id already exists the statement is a no-op, otherwise the row is
inserted. -/
def add_subscriber (db : SubscriberTable) (chatId : Int) (firstName tz : String) :
    SubscriberTable :=
  if isSubscribed db chatId then db
  else db ++ [{ chat_id := chatId, first_name := firstName, timezone := tz }]

/-- remove_subscriber (lines 81-87): DELETE FROM subscribers WHERE
chat_id = ? — removes the matching row, a no-op when absent. -/
def remove_subscriber (db : SubscriberTable) (chatId : Int) : SubscriberTable :=
  db.filter (fun r => !(r.chat_id == chatId))

/-- A subscribe or unsubscribe request for a fixed id. -/
inductive SubOp where
  | sub (firstName tz : String)
  | unsub
deriving DecidableEq, Repr

/-- A finite sequence of subscribe/unsubscribe calls on one id. -/
def applyOps (db : SubscriberTable) (chatId : Int) (ops : List SubOp) : SubscriberTable :=
  ops.foldl (fun d op =>
    match op with
    | SubOp.sub firstName tz => add_subscriber d chatId firstName tz
    | SubOp.unsub => remove_subscriber d chatId) db

/-- The specification-side model: folding idempotent set-insert and
set-remove over the same operation sequence. -/
def specFold (s : Finset Int) (chatId : Int) (ops : List SubOp) : Finset Int :=
  ops.foldl (fun t op =>
    match op with
    | SubOp.sub _ _ => insert chatId t
    | SubOp.unsub => t.erase chatId) s

/-- The for loop of send_daily_messages (lines 221-227): attempt delivery
to each id in turn; a raised delivery failure is caught and logged as a
warning with the offending id, and the loop continues.  Returns the ids
delivery was attempted to, in order, and the logged (id, error) warnings. -/
def broadcastLoop (send : Int → String → Except String Unit) (message : String) :
    List Int → List Int × List (Int × String)
  | [] => ([], [])
  | chatId :: rest =>
      let tail := broadcastLoop send message rest
      match send chatId message with
      | Except.ok _ => (chatId :: tail.1, tail.2)
      | Except.error e => (chatId :: tail.1, (chatId, e) :: tail.2)

/-- What one broadcast cycle produces: the logged subscriber count
(logger.info at line 220), the delivery attempts, and the logged
failures. -/
structure BroadcastLog where
  attemptedCount : Nat
  attempts : List Int
  failures : List (Int × String)
deriving DecidableEq, Repr

/-- send_daily_messages (lines 211-227): read the subscriber list once,
log its size, then attempt delivery to every id. -/
def send_daily_messages (db : SubscriberTable)
    (send : Int → String → Except String Unit) (message : String) : BroadcastLog :=
  let subs := get_subscribers db
  { attemptedCount := subs.length
    attempts := (broadcastLoop send message subs).1
    failures := (broadcastLoop send message subs).2 }

/-- Minutes in a day, for the scheduler model. -/
def minutesPerDay : Nat := 1440

/-- The wall-clock time-of-day (in minutes) of an instant measured in
minutes of local time in the configured timezone. -/
def timeOfDay (t : Nat) : Nat := t % minutesPerDay

/-- Modelled from the spec: the source only configures the third-party
JobQueue.run_daily with a fixed local time (src/main.py lines 254-256);
the next-fire computation itself is not repository code.  The spec
contract: the next occurrence of the configured local time-of-day in the
configured named timezone — today if that local time is still in the
future, otherwise tomorrow.  Instants are minutes of local wall-clock
time in that timezone. -/
def nextFire (now target : Nat) : Nat :=
  if timeOfDay now < target then now - timeOfDay now + target
  else now - timeOfDay now + minutesPerDay + target

/-- Modelled from the spec: after each fire the scheduler re-arms for the
following day, so the n-th fire is the first fire plus n days. -/
def fireTimes (start target : Nat) (n : Nat) : Nat :=
  nextFire start target + n * minutesPerDay

/-- The configured broadcast time: datetime.time(9, 0) at line 256. -/
def scheduledMinute : Nat := 9 * 60

/-- The configured named timezone (src/main.py line 28). -/
def TIMEZONE : String := "Asia/Kolkata"

/-- A concrete provider that always raises, for concrete evaluations. -/
def errProvider : List Message → GroqResult := fun _ => GroqResult.error "down"

/-- A concrete run of seven exchanges, for concrete evaluations. -/
def sevenMsgs : List String := ["m1", "m2", "m3", "m4", "m5", "m6", "m7"]

/-- A concrete provider that succeeds with a padded reply, for concrete
evaluations. -/
def okProvider : List Message → GroqResult := fun _ => GroqResult.ok " fine "

/-- A concrete subscriber table with ids 1, 2, 3. -/
def threeSubscriberTable : SubscriberTable :=
  [{ chat_id := 1, first_name := "A", timezone := TIMEZONE },
   { chat_id := 2, first_name := "B", timezone := TIMEZONE },
   { chat_id := 3, first_name := "C", timezone := TIMEZONE }]

/-- A concrete delivery oracle that fails exactly on id 2. -/
def failOnTwo : Int → String → Except String Unit :=
  fun chatId _ => if chatId = 2 then Except.error "blocked" else Except.ok ()

/-- A concrete subscribe/unsubscribe sequence. -/
def fiveOps : List SubOp :=
  [SubOp.sub "X" "tz", SubOp.sub "Y" "tz2", SubOp.unsub, SubOp.unsub, SubOp.sub "Z" "tz3"]

/-! ### Helper lemmas on the context dictionary and on takeLast -/

lemma ctxGet_ctxSet_self (ctx : UserContext) (chatId : Int) (h : History) :
    ctxGet (ctxSet ctx chatId h) chatId = h := by
  induction ctx with
  | nil => simp [ctxSet, ctxGet]
  | cons kv rest ih =>
      rcases kv with ⟨k, v⟩
      by_cases hk : k = chatId
      · simp [ctxSet, hk, ctxGet]
      · simp [ctxSet, hk, ctxGet, ih]

lemma ctxGet_ctxSet_ne (ctx : UserContext) (chatId id2 : Int) (h : History)
    (hne : id2 ≠ chatId) :
    ctxGet (ctxSet ctx chatId h) id2 = ctxGet ctx id2 := by
  have hne2 : ¬ chatId = id2 := fun he => hne (Eq.symm he)
  induction ctx with
  | nil =>
      simp only [ctxSet, ctxGet]
      rw [if_neg hne2]
  | cons kv rest ih =>
      rcases kv with ⟨k, v⟩
      by_cases hk : k = chatId
      · subst hk
        simp only [ctxSet, if_pos rfl, ctxGet]
        rw [if_neg hne2, if_neg hne2]
      · simp [ctxSet, hk, ctxGet, ih]

lemma length_takeLast (n : Nat) (l : List α) : (takeLast n l).length = min n l.length := by
  simp [takeLast]
  omega

lemma takeLast_of_len_le {n : Nat} {l : List α} (h : l.length ≤ n) : takeLast n l = l := by
  simp [takeLast, Nat.sub_eq_zero_of_le h]

lemma takeLast_eq_rtake (n : Nat) (l : List α) : takeLast n l = l.rtake n := rfl

lemma take_append_take (n : Nat) (x y : List α) :
    (x ++ y.take n).take n = (x ++ y).take n := by
  rw [List.take_append_eq_append_take, List.take_append_eq_append_take, List.take_take,
    Nat.min_eq_left (Nat.sub_le n x.length)]

lemma takeLast_append_takeLast (n : Nat) (a b : List α) :
    takeLast n (takeLast n a ++ b) = takeLast n (a ++ b) := by
  simp only [takeLast_eq_rtake, List.rtake_eq_reverse_take_reverse, List.reverse_append,
    List.reverse_reverse]
  rw [take_append_take]

lemma takeLast_append_of_le (n : Nat) (a b : List α) (h : n ≤ b.length) :
    takeLast n (a ++ b) = takeLast n b := by
  simp only [takeLast_eq_rtake, List.rtake_eq_reverse_take_reverse, List.reverse_append]
  rw [List.take_append_of_le_length (by simpa using h)]

lemma head?_takeLast (n : Nat) (l : List α) :
    (takeLast n l).head? = l[l.length - n]? := by
  simp [takeLast, List.head?_drop]

/-! ### The exchange step seen on one history -/

lemma length_stepHistory_le (p : List Message → GroqResult) (h : History) (m : String) :
    (stepHistory p h m).length ≤ MAX_HISTORY * 2 := by
  simp [stepHistory, length_takeLast]

lemma length_transcript (p : List Message → GroqResult) (msgs : List String) :
    ∀ h : History, (transcript p h msgs).length = 2 * msgs.length := by
  induction msgs with
  | nil => intro h; simp [transcript]
  | cons m ms ih =>
      intro h
      simp [transcript, ih]
      omega

lemma foldHistory_eq_takeLast (p : List Message → GroqResult) (msgs : List String) :
    ∀ h : History, h.length ≤ MAX_HISTORY * 2 →
      foldHistory p h msgs = takeLast (MAX_HISTORY * 2) (h ++ transcript p h msgs) := by
  induction msgs with
  | nil =>
      intro h hle
      simp only [foldHistory, List.foldl_nil, transcript, List.append_nil]
      exact (takeLast_of_len_le hle).symm
  | cons m ms ih =>
      intro h hle
      have h2 : foldHistory p h (m :: ms) = foldHistory p (stepHistory p h m) ms := by
        simp [foldHistory]
      rw [h2, ih (stepHistory p h m) (length_stepHistory_le p h m)]
      rw [transcript]
      have h3 : h ++ (("user", m) :: ("assistant", replyFor p h m) ::
          transcript p (stepHistory p h m) ms)
          = (h ++ [("user", m), ("assistant", replyFor p h m)]) ++
              transcript p (stepHistory p h m) ms := by
        simp
      rw [h3]
      conv_rhs => rw [← takeLast_append_takeLast]
      rfl

lemma ctxGet_runExchanges (p : List Message → GroqResult) (chatId : Int)
    (msgs : List String) :
    ∀ ctx : UserContext,
      ctxGet (runExchanges p ctx chatId msgs) chatId
        = foldHistory p (ctxGet ctx chatId) msgs := by
  induction msgs with
  | nil => intro ctx; simp [runExchanges, foldHistory]
  | cons m ms ih =>
      intro ctx
      have h1 : runExchanges p ctx chatId (m :: ms)
          = runExchanges p (chat_with_groq true p ctx chatId m).2 chatId ms := by
        simp [runExchanges]
      have h2 : foldHistory p (ctxGet ctx chatId) (m :: ms)
          = foldHistory p (stepHistory p (ctxGet ctx chatId) m) ms := by
        simp [foldHistory]
      rw [h1, h2, ih]
      congr 1
      simp [chat_with_groq, ctxGet_ctxSet_self]

/-! ### The pairing invariant -/

lemma paired_append_pair (m r : String) : ∀ h : History, pairedHist h = true →
    pairedHist (h ++ [("user", m), ("assistant", r)]) = true := by
  intro h
  induction h using pairedHist.induct with
  | case1 => intro _; simp [pairedHist]
  | case2 r1 c1 r2 c2 rest ih =>
      intro hp
      rw [pairedHist] at hp
      rw [Bool.and_eq_true, Bool.and_eq_true] at hp
      simp only [List.cons_append]
      rw [pairedHist, Bool.and_eq_true, Bool.and_eq_true]
      exact ⟨⟨hp.1.1, hp.1.2⟩, ih hp.2⟩
  | case3 h h1 h2 =>
      intro hp
      exact absurd hp (by simp [pairedHist, h1, h2])

lemma paired_even_length : ∀ h : History, pairedHist h = true → h.length % 2 = 0 := by
  intro h
  induction h using pairedHist.induct with
  | case1 => intro _; rfl
  | case2 r1 c1 r2 c2 rest ih =>
      intro hp
      rw [pairedHist, Bool.and_eq_true, Bool.and_eq_true] at hp
      have := ih hp.2
      simp [List.length_cons]
      omega
  | case3 h h1 h2 =>
      intro hp
      exact absurd hp (by simp [pairedHist, h1, h2])

lemma paired_tail (x y : String × String) (t : History)
    (h : pairedHist (x :: y :: t) = true) : pairedHist t = true := by
  rcases x with ⟨r1, c1⟩
  rcases y with ⟨r2, c2⟩
  rw [pairedHist, Bool.and_eq_true, Bool.and_eq_true] at h
  exact h.2

lemma paired_single (x : String × String) : pairedHist [x] = false := by
  rcases x with ⟨r1, c1⟩
  rfl

lemma paired_drop_two (h : History) (hp : pairedHist h = true) :
    pairedHist (h.drop 2) = true := by
  match h with
  | [] => exact hp
  | [x] => exact absurd hp (by simp [paired_single])
  | x :: y :: rest => exact paired_tail x y rest hp

lemma paired_drop_even (k : Nat) : ∀ h : History, pairedHist h = true →
    pairedHist (h.drop (2 * k)) = true := by
  induction k with
  | zero => intro h hp; simpa using hp
  | succ n ih =>
      intro h hp
      have h2 : 2 * (n + 1) = 2 + 2 * n := by ring
      rw [h2, ← List.drop_drop]
      exact ih (h.drop 2) (paired_drop_two h hp)

lemma wellFormed_stepHistory (p : List Message → GroqResult) (h : History) (m : String)
    (hw : WellFormedHistory h) : WellFormedHistory (stepHistory p h m) := by
  obtain ⟨hp, hl⟩ := hw
  constructor
  · have hp2 := paired_append_pair m (replyFor p h m) h hp
    have hev := paired_even_length h hp
    obtain ⟨k, hk⟩ : ∃ k, (h ++ [("user", m), ("assistant", replyFor p h m)]).length
        - MAX_HISTORY * 2 = 2 * k := by
      simp only [List.length_append, List.length_cons, List.length_nil, MAX_HISTORY]
      refine ⟨(h.length + 2 - 10) / 2, ?_⟩
      omega
    rw [stepHistory, takeLast, hk]
    exact paired_drop_even k _ hp2
  · exact length_stepHistory_le p h m

/-! ### Broadcast loop helpers -/

lemma broadcastLoop_fst (send : Int → String → Except String Unit) (message : String) :
    ∀ subs : List Int, (broadcastLoop send message subs).1 = subs := by
  intro subs
  induction subs with
  | nil => rfl
  | cons c rest ih =>
      simp only [broadcastLoop]
      cases hc : send c message <;> simp [hc, ih]

lemma broadcastLoop_snd (send : Int → String → Except String Unit) (message : String) :
    ∀ subs : List Int,
      (broadcastLoop send message subs).2
        = subs.filterMap (fun chatId =>
            match send chatId message with
            | Except.ok _ => none
            | Except.error e => some (chatId, e)) := by
  intro subs
  induction subs with
  | nil => rfl
  | cons c rest ih =>
      simp only [broadcastLoop, List.filterMap_cons]
      cases hc : send c message <;> simp [hc, ih]

lemma broadcastLoop_failures_length (send : Int → String → Except String Unit)
    (message : String) :
    ∀ subs : List Int,
      (broadcastLoop send message subs).2.length
        = subs.countP (fun c =>
            match send c message with
            | Except.ok _ => false
            | Except.error _ => true) := by
  intro subs
  induction subs with
  | nil => rfl
  | cons c rest ih =>
      simp only [broadcastLoop, List.countP_cons]
      cases hc : send c message <;> simp [hc, ih]

/-! ### Subscriber store helpers -/

lemma isSubscribed_add_self (db : SubscriberTable) (chatId : Int) (n t : String) :
    isSubscribed (add_subscriber db chatId n t) chatId = true := by
  cases hb : isSubscribed db chatId with
  | true => simp [add_subscriber, hb]
  | false =>
      simp only [add_subscriber, hb, if_neg Bool.false_ne_true]
      simp [isSubscribed, get_subscribers]

lemma isSubscribed_remove_self (db : SubscriberTable) (chatId : Int) :
    isSubscribed (remove_subscriber db chatId) chatId = false := by
  simp only [isSubscribed, get_subscribers, remove_subscriber, decide_eq_false_iff_not]
  simp only [List.mem_map, List.mem_filter, not_exists, not_and]
  intro r hr
  intro he
  rw [Bool.not_eq_true', beq_eq_false_iff_ne] at hr
  exact hr.2 he

lemma add_subscriber_noop (db : SubscriberTable) (chatId : Int) (n t : String)
    (h : isSubscribed db chatId = true) : add_subscriber db chatId n t = db := by
  simp [add_subscriber, h]

lemma remove_subscriber_noop (db : SubscriberTable) (chatId : Int)
    (h : isSubscribed db chatId = false) : remove_subscriber db chatId = db := by
  simp only [isSubscribed, get_subscribers, decide_eq_false_iff_not, List.mem_map,
    not_exists, not_and] at h
  rw [remove_subscriber]
  apply List.filter_eq_self.mpr
  intro r hr
  simp only [Bool.not_eq_true', beq_eq_false_iff_ne]
  exact fun he => h r hr he

lemma applyOps_mem_iff (chatId : Int) (ops : List SubOp) :
    ∀ (db : SubscriberTable) (s : Finset Int),
      (isSubscribed db chatId = true ↔ chatId ∈ s) →
      (isSubscribed (applyOps db chatId ops) chatId = true ↔
        chatId ∈ specFold s chatId ops) := by
  induction ops with
  | nil => intro db s hbase; simpa [applyOps, specFold] using hbase
  | cons op rest ih =>
      intro db s hbase
      cases op with
      | sub n t =>
          have hstep : isSubscribed (add_subscriber db chatId n t) chatId = true ↔
              chatId ∈ insert chatId s := by
            simp [isSubscribed_add_self]
          have := ih (add_subscriber db chatId n t) (insert chatId s) hstep
          simpa [applyOps, specFold] using this
      | unsub =>
          have hstep : isSubscribed (remove_subscriber db chatId) chatId = true ↔
              chatId ∈ s.erase chatId := by
            simp [isSubscribed_remove_self]
          have := ih (remove_subscriber db chatId) (s.erase chatId) hstep
          simpa [applyOps, specFold] using this

/-! ### The claims -/

/-- C1: for every recipient id and every sequence of N exchanges processed
through chat_with_groq (provider client configured) with N > MAX_HISTORY,
starting from any stored history of legal length, the stored history of the recipient
afterwards is exactly the most recent MAX_HISTORY exchanges
(2*MAX_HISTORY turns) of the run in chronological order, oldest exchanges
discarded from the front: it equals the last MAX_HISTORY*2 turns of the
full chronological transcript, has length exactly MAX_HISTORY*2, and its
first turn sits at transcript position 2*N - MAX_HISTORY*2 — with
MAX_HISTORY = 5 and N = 7 the history has length 10 and begins with
exchange number 3. -/
theorem history_keeps_last_max_history (p : List Message → GroqResult)
    (ctx : UserContext) (chatId : Int) (msgs : List String)
    (hN : MAX_HISTORY < msgs.length)
    (hlen : (ctxGet ctx chatId).length ≤ MAX_HISTORY * 2) :
    ctxGet (runExchanges p ctx chatId msgs) chatId
        = takeLast (MAX_HISTORY * 2) (transcript p (ctxGet ctx chatId) msgs) ∧
    (ctxGet (runExchanges p ctx chatId msgs) chatId).length = MAX_HISTORY * 2 ∧
    (ctxGet (runExchanges p ctx chatId msgs) chatId).head?
        = (transcript p (ctxGet ctx chatId) msgs)[2 * msgs.length - MAX_HISTORY * 2]? := by
  have hTlen : (transcript p (ctxGet ctx chatId) msgs).length = 2 * msgs.length :=
    length_transcript p msgs _
  have h1 : ctxGet (runExchanges p ctx chatId msgs) chatId
      = takeLast (MAX_HISTORY * 2) (transcript p (ctxGet ctx chatId) msgs) := by
    rw [ctxGet_runExchanges, foldHistory_eq_takeLast p msgs _ hlen]
    apply takeLast_append_of_le
    rw [hTlen]
    simp only [MAX_HISTORY] at hN ⊢
    omega
  refine ⟨h1, ?_, ?_⟩
  · rw [h1, length_takeLast, hTlen]
    simp only [MAX_HISTORY] at hN ⊢
    omega
  · rw [h1, head?_takeLast, hTlen]

/-- Witness for C1: the concrete run of seven exchanges with an
always-raising provider, from an empty context. -/
theorem history_keeps_last_max_history_witness :
    (MAX_HISTORY < sevenMsgs.length ∧
      (ctxGet ([] : UserContext) 1).length ≤ MAX_HISTORY * 2) ∧
    (ctxGet (runExchanges errProvider [] 1 sevenMsgs) 1
        = takeLast (MAX_HISTORY * 2) (transcript errProvider (ctxGet ([] : UserContext) 1) sevenMsgs) ∧
      (ctxGet (runExchanges errProvider [] 1 sevenMsgs) 1).length = MAX_HISTORY * 2 ∧
      (ctxGet (runExchanges errProvider [] 1 sevenMsgs) 1).head?
        = (transcript errProvider (ctxGet ([] : UserContext) 1) sevenMsgs)[2 * sevenMsgs.length - MAX_HISTORY * 2]?) :=
  ⟨⟨by decide, by decide⟩,
    history_keeps_last_max_history errProvider [] 1 sevenMsgs (by decide) (by decide)⟩

/-- C2: for every recipient id and every input text, when the provider is
unconfigured (no client) chat_with_groq returns the fixed
service-unavailable fallback text, and when the configured provider call
raises it returns the fixed comfort fallback text; in neither case is the
error propagated to the caller. -/
theorem fallback_on_unavailable_or_raise (p : List Message → GroqResult)
    (ctx : UserContext) (chatId : Int) (m e : String)
    (hp : p (buildMessages (ctxGet ctx chatId) m) = GroqResult.error e) :
    (chat_with_groq false p ctx chatId m).1 = unavailableReply ∧
    (chat_with_groq true p ctx chatId m).1 = fallbackReply := by
  constructor
  · rfl
  · simp [chat_with_groq, replyFor, hp]

/-- Witness for C2 at a concrete recipient, input and raising provider. -/
theorem fallback_on_unavailable_or_raise_witness :
    errProvider (buildMessages (ctxGet ([] : UserContext) 1) "hello") = GroqResult.error "down" ∧
    ((chat_with_groq false errProvider [] 1 "hello").1 = unavailableReply ∧
      (chat_with_groq true errProvider [] 1 "hello").1 = fallbackReply) :=
  ⟨rfl, fallback_on_unavailable_or_raise errProvider [] 1 "hello" "down" rfl⟩

/-- C3 counterexample: the claim says a call to chat_with_groq leaves the
Context Buffer unchanged; at a concrete configured-provider call starting
from the empty USER_CONTEXT, the returned context is not the empty
context — the generator itself mutates the buffer (src/main.py lines
139-143), and its caller text_handler records nothing. -/
theorem generator_stateless_counterexample :
    (chat_with_groq true errProvider [] 1 "hi").2 ≠ ([] : UserContext) := by
  decide

/-- C3 amended: chat_with_groq is not stateless — on every call with a
configured client it records the (user input, reply) exchange into the
Context Buffer itself (append then truncate to MAX_HISTORY*2 turns);
recording is not left to the caller.  Only the unconfigured-client path
leaves the Context Buffer unchanged. -/
theorem generator_records_exchange_itself (p : List Message → GroqResult)
    (ctx : UserContext) (chatId : Int) (m : String) :
    (chat_with_groq false p ctx chatId m).2 = ctx ∧
    ctxGet (chat_with_groq true p ctx chatId m).2 chatId
      = takeLast (MAX_HISTORY * 2)
          (ctxGet ctx chatId ++
            [("user", m), ("assistant", (chat_with_groq true p ctx chatId m).1)]) := by
  constructor
  · rfl
  · simp [chat_with_groq, ctxGet_ctxSet_self, stepHistory]

/-- C4: for every subscriber table, delivery oracle and message text,
send_daily_messages reads the subscriber id list once and attempts
delivery to every id independently and in order — the attempt list is
exactly the subscriber list, so no failure aborts the broadcast and no id
is retried — and every failing delivery is caught and logged as a warning
carrying the offending id (and only the failing ones are). -/
theorem broadcast_isolates_failures (db : SubscriberTable)
    (send : Int → String → Except String Unit) (message : String) :
    (send_daily_messages db send message).attempts = get_subscribers db ∧
    (send_daily_messages db send message).failures
      = (get_subscribers db).filterMap (fun chatId =>
          match send chatId message with
          | Except.ok _ => none
          | Except.error e => some (chatId, e)) :=
  ⟨broadcastLoop_fst send message (get_subscribers db),
    broadcastLoop_snd send message (get_subscribers db)⟩

/-- C8: every broadcast cycle logs the count of attempted deliveries (the
subscriber-list length) and one warning per failed delivery, so the
number of failure reports equals the number of failing recipients; in
particular when the delivery of exactly one recipient fails, exactly one
failure is reported. -/
theorem broadcast_reports_counts (db : SubscriberTable)
    (send : Int → String → Except String Unit) (message : String)
    (h1 : (get_subscribers db).countP (fun c =>
        match send c message with
        | Except.ok _ => false
        | Except.error _ => true) = 1) :
    (send_daily_messages db send message).attemptedCount = (get_subscribers db).length ∧
    (send_daily_messages db send message).failures.length = 1 := by
  refine ⟨rfl, ?_⟩
  have h2 := broadcastLoop_failures_length send message (get_subscribers db)
  simpa [send_daily_messages, h2] using h1

/-- Witness for C8: three subscribers of which exactly the second fails. -/
theorem broadcast_reports_counts_witness :
    (get_subscribers threeSubscriberTable).countP (fun c =>
        match failOnTwo c "Good morning" with
        | Except.ok _ => false
        | Except.error _ => true) = 1 ∧
    ((send_daily_messages threeSubscriberTable failOnTwo "Good morning").attemptedCount
        = (get_subscribers threeSubscriberTable).length ∧
      (send_daily_messages threeSubscriberTable failOnTwo "Good morning").failures.length = 1) :=
  ⟨by decide, broadcast_reports_counts threeSubscriberTable failOnTwo "Good morning" (by decide)⟩

/-- C5: for every table, id and finite sequence of add_subscriber and
remove_subscriber calls on that id, the membership of the id afterwards equals
the result of folding idempotent set-insert and set-remove over the
sequence; moreover subscribing an already-present id leaves the whole
table unchanged (no error) and unsubscribing an absent id leaves the
whole table unchanged (no error). -/
theorem store_membership_is_set_fold (db : SubscriberTable) (chatId : Int)
    (ops : List SubOp) :
    (isSubscribed (applyOps db chatId ops) chatId = true ↔
        chatId ∈ specFold (get_subscribers db).toFinset chatId ops) ∧
    (∀ n t, isSubscribed db chatId = true → add_subscriber db chatId n t = db) ∧
    (isSubscribed db chatId = false → remove_subscriber db chatId = db) := by
  refine ⟨?_, fun n t h => add_subscriber_noop db chatId n t h,
    fun h => remove_subscriber_noop db chatId h⟩
  apply applyOps_mem_iff
  simp [isSubscribed, List.mem_toFinset]

/-- Witness for C5: a concrete subscribe/unsubscribe sequence on id 7. -/
theorem store_membership_is_set_fold_witness :
    isSubscribed (applyOps threeSubscriberTable 7 fiveOps) 7 = true ↔
      7 ∈ specFold (get_subscribers threeSubscriberTable).toFinset 7 fiveOps :=
  (store_membership_is_set_fold threeSubscriberTable 7 fiveOps).1

/-- C6: the Context Buffer invariant is preserved by every call of
chat_with_groq (configured or not): when every stored history consists of
whole (user, assistant) pairs in order, user turn first, with at most
MAX_HISTORY*2 turns, the same holds for every stored history afterwards —
the truncation to the last MAX_HISTORY*2 turns never splits a pair
because turns are only appended in (user, assistant) pairs. -/
theorem context_buffer_invariant (b : Bool) (p : List Message → GroqResult)
    (ctx : UserContext) (chatId : Int) (m : String)
    (hw : ∀ id2, WellFormedHistory (ctxGet ctx id2)) :
    ∀ id2, WellFormedHistory (ctxGet (chat_with_groq b p ctx chatId m).2 id2) := by
  intro id2
  cases b with
  | false => exact hw id2
  | true =>
      by_cases hid : id2 = chatId
      · subst hid
        have h2 : (chat_with_groq true p ctx id2 m).2
            = ctxSet ctx id2 (stepHistory p (ctxGet ctx id2) m) := rfl
        rw [h2, ctxGet_ctxSet_self]
        exact wellFormed_stepHistory p (ctxGet ctx id2) m (hw id2)
      · have h2 : (chat_with_groq true p ctx chatId m).2
            = ctxSet ctx chatId (stepHistory p (ctxGet ctx chatId) m) := rfl
        rw [h2, ctxGet_ctxSet_ne ctx chatId id2 _ hid]
        exact hw id2

/-- Witness for C6: one configured exchange from the empty buffer. -/
theorem context_buffer_invariant_witness :
    (∀ id2, WellFormedHistory (ctxGet ([] : UserContext) id2)) ∧
    (∀ id2, WellFormedHistory (ctxGet (chat_with_groq true errProvider [] 1 "hi").2 id2)) :=
  ⟨fun _ => ⟨rfl, by simp [ctxGet]⟩,
    context_buffer_invariant true errProvider [] 1 "hi"
      (fun _ => ⟨rfl, by simp [ctxGet]⟩)⟩

/-- C7: on the successful provider path, chat_with_groq builds the request
as one fixed system-instruction message first, then the current history turns of the recipient in order with their stored roles, then the new
input as the final user-role message, and returns the provider reply text
with surrounding whitespace stripped. -/
theorem success_path_request_and_reply (p : List Message → GroqResult)
    (ctx : UserContext) (chatId : Int) (m c : String)
    (hp : p (buildMessages (ctxGet ctx chatId) m) = GroqResult.ok c) :
    (chat_with_groq true p ctx chatId m).1 = c.trim ∧
    (buildMessages (ctxGet ctx chatId) m).head?
      = some { role := "system", content := systemPrompt } ∧
    List.take (ctxGet ctx chatId).length (List.drop 1 (buildMessages (ctxGet ctx chatId) m))
      = (ctxGet ctx chatId).map (fun rm => { role := rm.1, content := rm.2 }) ∧
    (buildMessages (ctxGet ctx chatId) m).getLast? = some { role := "user", content := m } := by
  refine ⟨?_, ?_, ?_, ?_⟩
  · have h1 : (chat_with_groq true p ctx chatId m).1 = replyFor p (ctxGet ctx chatId) m := rfl
    rw [h1, replyFor, hp]
  · simp [buildMessages]
  · simp only [buildMessages, List.cons_append, List.drop_succ_cons, List.drop_zero]
    have h2 : (ctxGet ctx chatId).length
        = ((ctxGet ctx chatId).map (fun rm : String × String =>
            ({ role := rm.1, content := rm.2 } : Message))).length :=
      (List.length_map _ _).symm
    rw [h2, List.take_left]
  · rw [buildMessages, List.getLast?_concat]

/-- Witness for C7 at a concrete succeeding provider call. -/
theorem success_path_request_and_reply_witness :
    okProvider (buildMessages (ctxGet ([] : UserContext) 1) "hey") = GroqResult.ok " fine " ∧
    ((chat_with_groq true okProvider [] 1 "hey").1 = " fine ".trim ∧
      (buildMessages (ctxGet ([] : UserContext) 1) "hey").head?
        = some { role := "system", content := systemPrompt } ∧
      List.take (ctxGet ([] : UserContext) 1).length
          (List.drop 1 (buildMessages (ctxGet ([] : UserContext) 1) "hey"))
        = (ctxGet ([] : UserContext) 1).map (fun rm => { role := rm.1, content := rm.2 }) ∧
      (buildMessages (ctxGet ([] : UserContext) 1) "hey").getLast?
        = some { role := "user", content := "hey" }) :=
  ⟨rfl, success_path_request_and_reply okProvider [] 1 "hey" " fine " rfl⟩

/-- C9: the scheduler fires at the next occurrence of the configured local
time-of-day in the configured named timezone — strictly after the start
instant, at the configured time-of-day, and no later than any other
instant after the start with that time-of-day (so today if the time is
still ahead, else tomorrow) — and re-arms daily: consecutive fires are one
day apart and every fire lands on the configured time-of-day regardless
of when the process started. -/
theorem scheduler_next_fire_correct (now target n : Nat) (ht : target < minutesPerDay) :
    now < nextFire now target ∧
    timeOfDay (nextFire now target) = target ∧
    (∀ t, now < t → timeOfDay t = target → nextFire now target ≤ t) ∧
    fireTimes now target (n + 1) = fireTimes now target n + minutesPerDay ∧
    timeOfDay (fireTimes now target n) = target := by
  simp only [minutesPerDay] at ht
  refine ⟨?_, ?_, ?_, ?_, ?_⟩
  · simp only [nextFire, timeOfDay, minutesPerDay]
    split_ifs with h <;> omega
  · simp only [nextFire, timeOfDay, minutesPerDay]
    split_ifs with h <;> omega
  · intro t hlt htod
    simp only [timeOfDay, minutesPerDay] at htod
    simp only [nextFire, timeOfDay, minutesPerDay]
    split_ifs with h <;> omega
  · simp only [fireTimes]
    ring
  · simp only [fireTimes, nextFire, timeOfDay, minutesPerDay]
    split_ifs with h <;> omega

/-- Witness for C9 at the configured 9:00 broadcast minute and a start
instant late in some day. -/
theorem scheduler_next_fire_correct_witness :
    scheduledMinute < minutesPerDay ∧
    (1000 < nextFire 1000 scheduledMinute ∧
      timeOfDay (nextFire 1000 scheduledMinute) = scheduledMinute ∧
      (∀ t, 1000 < t → timeOfDay t = scheduledMinute → nextFire 1000 scheduledMinute ≤ t) ∧
      fireTimes 1000 scheduledMinute (0 + 1) = fireTimes 1000 scheduledMinute 0 + minutesPerDay ∧
      timeOfDay (fireTimes 1000 scheduledMinute 0) = scheduledMinute) :=
  ⟨by decide, scheduler_next_fire_correct 1000 scheduledMinute 0 (by decide)⟩

/-- C10: the two fallback paths treat the Context Buffer differently —
with no configured client chat_with_groq returns without recording any
turn (the whole USER_CONTEXT is unchanged), but when a configured
provider call raises, the (user input, fallback reply) exchange is
appended to the history of the recipient and truncated exactly as on
success. -/
theorem fallback_paths_differ_on_context (p : List Message → GroqResult)
    (ctx : UserContext) (chatId : Int) (m e : String)
    (hp : p (buildMessages (ctxGet ctx chatId) m) = GroqResult.error e) :
    (chat_with_groq false p ctx chatId m).2 = ctx ∧
    ctxGet (chat_with_groq true p ctx chatId m).2 chatId
      = takeLast (MAX_HISTORY * 2)
          (ctxGet ctx chatId ++ [("user", m), ("assistant", fallbackReply)]) := by
  refine ⟨rfl, ?_⟩
  have h2 : (chat_with_groq true p ctx chatId m).2
      = ctxSet ctx chatId (stepHistory p (ctxGet ctx chatId) m) := rfl
  rw [h2, ctxGet_ctxSet_self, stepHistory, replyFor, hp]

/-- Witness for C10 at a concrete raising provider. -/
theorem fallback_paths_differ_on_context_witness :
    errProvider (buildMessages (ctxGet ([] : UserContext) 5) "help") = GroqResult.error "down" ∧
    ((chat_with_groq false errProvider [] 5 "help").2 = ([] : UserContext) ∧
      ctxGet (chat_with_groq true errProvider [] 5 "help").2 5
        = takeLast (MAX_HISTORY * 2)
            (ctxGet ([] : UserContext) 5 ++ [("user", "help"), ("assistant", fallbackReply)])) :=
  ⟨rfl, fallback_paths_differ_on_context errProvider [] 5 "help" "down" rfl⟩

end TelegramBot
